import Mathlib

/-!
Shallow embedding of the wireguard-mesh repository (src/mesh) for
specification checking.  Pure data and control flow are translated from
the Python source; remote side effects (SSH commands run by
`WireguardRemote`) are modelled by explicit state passing over a
`Remote` record together with an environment describing which shell
operations succeed, and every operation additionally returns the list
of state-changing remote actions it invoked (its trace).
Randomness (preshared-key generation) and network probes (`can_peer`)
are supplied as explicit oracle arguments.
-/

namespace WgMesh

/-- Python exception kinds raised by the modelled code paths. -/
inductive PyErr where
  | valueError (msg : String)
  | runtimeError (msg : String)
  | indexError
  | attributeError (attr : String)
  | unexpectedExit
  | zeroDivision
deriving DecidableEq, Repr

/-- An IP address: version (4 or 6) and the integer value of the address,
modelling Python `ipaddress.IPv4Address`/`IPv6Address`. -/
structure IpAddr where
  version : Nat
  value : Nat
deriving DecidableEq, Repr

/-- An address with a prefix length, modelling `IPv4Interface`/`IPv6Interface`. -/
structure IpInterface where
  addr : IpAddr
  prefixlen : Nat
deriving DecidableEq, Repr

/-- types.DEFAULT_PORT -/
def DEFAULT_PORT : Nat := 51820

/-- Rendering of an address for shell fragments, modelling Python `str(addr)`. -/
def ipStr (a : IpAddr) : String := toString a.version ++ "#" ++ toString a.value

/-- Rendering of an interface (address/prefix), modelling Python `str(interface)`. -/
def ifaceStr (i : IpInterface) : String := ipStr i.addr ++ "/" ++ toString i.prefixlen

/-- Bit width of an address family (`max_prefixlen` in Python `ipaddress`). -/
def maxPrefixlen (version : Nat) : Nat := if version = 4 then 32 else 128

/-- util.host_index: `int(host.ip) - int(host.network.network_address)`,
i.e. the host bits of the interface address. -/
def host_index (host : IpInterface) : Nat :=
  host.addr.value % 2 ^ (maxPrefixlen host.addr.version - host.prefixlen)

/-- One peer entry of a WireGuard config, modelling
`wireguard_tools.wireguard_config.WireguardPeer`.  Keys are abstract
numeric tokens. -/
structure WgPeer where
  publicKey : Nat
  presharedKey : Option Nat
  allowedIps : List IpInterface
  endpointHost : String
  endpointPort : Nat
  friendlyName : String
  friendlyJson : Option String
deriving DecidableEq, Repr

/-- A WireGuard config, modelling `wireguard_tools.WireguardConfig`.
`peers` models the Python dict keyed by public key as an association
list in insertion order. -/
structure WgConfig where
  privateKey : Nat
  addresses : List IpInterface
  listenPort : Nat
  peers : List (Nat × WgPeer) := []
  postup : List String := []
  predown : List String := []
deriving DecidableEq, Repr

/-- `WireguardKey.public_key()` of the wireguard_tools dependency:
modelled as an abstract injective map on key tokens. -/
def publicKey (privateKey : Nat) : Nat := privateKey

/-- Dict lookup `peers[key]` / membership `key in peers` on the peers dict. -/
def lookupPeer (key : Nat) : List (Nat × WgPeer) → Option WgPeer
  | [] => none
  | (k, p) :: rest => if k = key then some p else lookupPeer key rest

/-- In-place mutation of the dict entry at `key` (Python mutates the
shared `WireguardPeer` object). -/
def updatePeer (key : Nat) (f : WgPeer → WgPeer) (ps : List (Nat × WgPeer)) :
    List (Nat × WgPeer) :=
  ps.map (fun kp => if kp.1 = key then (kp.1, f kp.2) else kp)

/-- `WireguardConfig.add_peer` of the wireguard_tools dependency:
`self.peers[peer.public_key] = peer` (dict insert-or-replace). -/
def WgConfig.add_peer (c : WgConfig) (p : WgPeer) : WgConfig :=
  if (lookupPeer p.publicKey c.peers).isSome then
    { c with peers := updatePeer p.publicKey (fun _ => p) c.peers }
  else
    { c with peers := c.peers ++ [(p.publicKey, p)] }

/-- gretap.gretap_up: ordered shell lines bringing up one GRETAP device
and ensuring its parent bridge. -/
def gretap_up (gretap_name bridge_name : String) (priority : Int)
    (loc rem : IpAddr) (bridge_addr : IpInterface) : List String :=
  let six : Bool := loc.version = 6 && rem.version = 6
  let kind : String := if six then "ip6gretap" else "gretap"
  [ "ip link add dev " ++ gretap_name ++ " type " ++ kind ++ " local " ++ ipStr loc
      ++ " remote " ++ ipStr rem,
    "ip link set dev " ++ gretap_name ++ " up",
    "if [ ! -f /sys/class/net/" ++ bridge_name ++ "/bridge/bridge_id ]; then "
      ++ "ip link add name " ++ bridge_name ++ " type bridge stp 1 prio " ++ toString priority ++ "; "
      ++ "ip link set dev " ++ bridge_name ++ " up; "
      ++ "ip addr add " ++ ifaceStr bridge_addr ++ " dev " ++ bridge_name ++ "; fi",
    "ip link set dev " ++ gretap_name ++ " master " ++ bridge_name ]

/-- gretap.gretap_down: shell lines tearing down one GRETAP device
and deleting the bridge when no interface is enslaved to it anymore. -/
def gretap_down (gretap_name bridge_name : String) : List String :=
  let nofail := " || true"
  [ "ip link set dev " ++ gretap_name ++ " nomaster" ++ nofail,
    "ip link del dev " ++ gretap_name ++ nofail,
    "if ! ip a | grep -q 'master " ++ bridge_name ++ "'; then "
      ++ "ip link del dev " ++ bridge_name ++ nofail ++ "; fi" ]

/-- node.MeshNode: declared identity plus the in-memory desired WireGuard
config.  The back-pointer `self._mesh` is flattened into the `meshName`
and `meshFull` fields; `addrIsRandom` models the
`isinstance(node.addr, RandomIPv6Address)` check of mesh.py (whether the
declared address is a freshly generated random one). -/
structure MeshNode where
  name : String
  addr : IpInterface
  addrIsRandom : Bool
  endpointHost : String
  endpointPort : Option Nat
  listenPort : Option Nat
  json : Option String
  prio : Option Int
  meshName : String
  meshFull : Bool
  config : WgConfig
deriving DecidableEq, Repr

/-- NodeType.index: host_index of the bridge address. -/
def MeshNode.index (n : MeshNode) : Nat := host_index n.addr

/-- MeshNode.bridge_priority: `32768 + 4096 * (prio ?? (-8 + (index-1) % 16))`
with Python (floor) modulo semantics. -/
def MeshNode.bridge_priority (n : MeshNode) : Int :=
  let p : Int :=
    match n.prio with
    | some p => p
    | none => -8 + (((n.index : Int) - 1) % 16)
  32768 + 4096 * p

/-- MeshNode.wg_addr: `self._config.addresses[0]`, the tunnel address.
Configs are always constructed with exactly one address; the default is
dead for the states considered. -/
def MeshNode.wg_addr (n : MeshNode) : IpInterface :=
  n.config.addresses.headD ⟨⟨6, 0⟩, 128⟩

/-- MeshNode.as_peer: the peer record advertising this node. -/
def MeshNode.as_peer (n : MeshNode) (preshared_key : Option Nat) : WgPeer :=
  { publicKey := publicKey n.config.privateKey
    presharedKey := preshared_key
    allowedIps := [n.wg_addr]
    endpointHost := n.endpointHost
    endpointPort := n.endpointPort.getD DEFAULT_PORT
    friendlyName := n.name
    friendlyJson := n.json }

/-- Friendly-metadata reconciliation of the refresh path of peer_with
(one side): returns the updated node json and peer record.  The Python
truthiness of `self.json` is modelled as `Option.isSome` (empty
containers conflated with None). -/
def reconcileFriendly (nodeJson : Option String) (nodeName : String) (peer : WgPeer) :
    Option String × WgPeer :=
  let (json', peer') :=
    if nodeJson = none ∧ peer.friendlyJson ≠ none then
      (peer.friendlyJson, peer)
    else if nodeJson ≠ none ∧ peer.friendlyJson ≠ nodeJson then
      (nodeJson, { peer with friendlyJson := nodeJson })
    else
      (nodeJson, peer)
  if peer'.friendlyName ≠ nodeName then
    (json', { peer' with friendlyName := nodeName })
  else
    (json', peer')

/-- MeshNode.peer_with (node.py lines 136-217).  `preshared` is the
random 32-byte key drawn by `token_bytes` for a new pairing and
`can_peer` is the outcome of the UDP reachability probe, both supplied
as oracles.  Errors model raised ValueError / IndexError; the source
raises before any mutation on every error path. -/
def MeshNode.peer_with (a b : MeshNode) (preshared : Nat) (can_peer : Bool) :
    Except PyErr (MeshNode × MeshNode) :=
  let this_pubkey := publicKey a.config.privateKey
  let that_pubkey := publicKey b.config.privateKey
  if this_pubkey = that_pubkey then
    .error (.valueError "Cannot peer with self")
  else
    match lookupPeer this_pubkey b.config.peers, lookupPeer that_pubkey a.config.peers with
    | some this_peer, some that_peer =>
      -- refresh path: both sides already carry each other
      match this_peer.allowedIps.head? with
      | none => .error .indexError
      | some x =>
        if x ≠ a.wg_addr then
          .error (.valueError "Existing peering WireGuard addresses do not match")
        else
          match that_peer.allowedIps.head? with
          | none => .error .indexError
          | some y =>
            if y ≠ b.wg_addr then
              .error (.valueError "Existing peering WireGuard addresses do not match")
            else
              let (aJson, this_peer') := reconcileFriendly a.json a.name this_peer
              let (bJson, that_peer') := reconcileFriendly b.json b.name that_peer
              let aConf :=
                { a.config with peers := updatePeer that_pubkey (fun _ => that_peer') a.config.peers }
              let bConf :=
                { b.config with peers := updatePeer this_pubkey (fun _ => this_peer') b.config.peers }
              .ok ({ a with json := aJson, config := aConf },
                   { b with json := bJson, config := bConf })
    | _, _ =>
      -- new peering
      if !a.meshFull && !can_peer then
        .ok (a, b)
      else
        let this_peer := a.as_peer (some preshared)
        let that_peer := b.as_peer (some preshared)
        let aConf := a.config.add_peer that_peer
        let bConf := b.config.add_peer this_peer
        let this_index := a.index
        let that_index := b.index
        let this_gretap_name := "gt-" ++ a.meshName ++ toString that_index
        let that_gretap_name := "gt-" ++ b.meshName ++ toString this_index
        let this_gretap_addr := a.wg_addr.addr
        let that_gretap_addr := b.wg_addr.addr
        let this_bridge_name := "br-" ++ a.meshName
        let that_bridge_name := "br-" ++ b.meshName
        let this_bridge_addr := a.addr
        let that_bridge_addr := b.addr
        let thisUpFrag := gretap_up this_gretap_name this_bridge_name a.bridge_priority
          this_gretap_addr that_gretap_addr this_bridge_addr
        let thatUpFrag := gretap_up that_gretap_name that_bridge_name b.bridge_priority
          that_gretap_addr this_gretap_addr that_bridge_addr
        let aConf := { aConf with postup := aConf.postup ++ thisUpFrag }
        let bConf := { bConf with postup := bConf.postup ++ thatUpFrag }
        let aConf := { aConf with predown := aConf.predown ++ gretap_down this_gretap_name this_bridge_name }
        let bConf := { bConf with predown := bConf.predown ++ gretap_down that_gretap_name that_bridge_name }
        .ok ({ a with config := aConf }, { b with config := bConf })

/-- The observable remote state of one node: the on-disk
`/etc/wireguard/<iface>.conf` file (parsed) and whether the WireGuard
interface is up in the kernel. -/
structure Remote where
  config : Option WgConfig
  isUp : Bool
deriving DecidableEq, Repr

/-- Environment of one node's remote: which shell operations succeed.
A failed `wg-quick up`/`down` leaves the interface state unchanged in
this model; a failed write leaves the file unchanged. -/
structure RemoteEnv where
  writeOk : Bool := true
  upOk : Bool := true
  downOk : Bool := true
deriving DecidableEq, Repr

/-- State-changing remote actions, recorded in traces. -/
inductive RAction where
  | configWrite
  | configRemove
  | wgUp
  | wgDown
deriving DecidableEq, Repr

/-- WireguardRemote.config_exists: `test -f /etc/wireguard/<iface>.conf`. -/
def Remote.config_exists (r : Remote) : Bool := r.config.isSome

/-- WireguardRemote.config_remove (remote.py lines 96-99): raises while
the interface is up, otherwise removes the file. -/
def Remote.config_remove (r : Remote) : Except PyErr Remote :=
  if r.isUp then
    .error (.runtimeError "Cannot remove config while interface is up")
  else
    .ok { r with config := none }

deriving instance DecidableEq for Except

/-- Result of one node-level operation: the Python return value (or a
propagated exception), the new remote state, and the invoked actions. -/
structure StepOut where
  result : Except PyErr Bool
  remote : Remote
  trace : List RAction
deriving DecidableEq, Repr

/-- The effective `write` value computed by the walrus-operator chain at
node.py line 222:
`if write or write is None and (write := not remote.config_exists) or (write := remote.config != self._config):`
which parses as `write or ((write is None) and (write := not A)) or (write := B)`;
note the last disjunct is evaluated also when `write` is False. -/
def effectiveWrite (n : MeshNode) (r : Remote) (write : Option Bool) : Bool :=
  match write with
  | some true => true
  | some false => decide (r.config ≠ some n.config)
  | none => if !r.config_exists then true else decide (r.config ≠ some n.config)

/-- MeshNode.up after the config-write phase (node.py lines 230-244):
handle an already-up interface, then `wg-quick up`, with config removal
as compensation when the up fails after a write. -/
def MeshNode.upRest (r : Remote) (env : RemoteEnv) (w : Bool) : StepOut :=
  if r.isUp && !w then
    ⟨.ok true, r, []⟩
  else
    let r2 := if r.isUp then (if env.downOk then { r with isUp := false } else r) else r
    let tr2 := if r.isUp then [RAction.wgDown] else []
    if env.upOk then
      ⟨.ok true, { r2 with isUp := true }, tr2 ++ [RAction.wgUp]⟩
    else if w then
      match r2.config_remove with
      | .error e => ⟨.error e, r2, tr2 ++ [RAction.wgUp, RAction.configRemove]⟩
      | .ok r3 => ⟨.ok false, r3, tr2 ++ [RAction.wgUp, RAction.configRemove]⟩
    else
      ⟨.ok false, r2, tr2 ++ [RAction.wgUp]⟩

/-- MeshNode.up (node.py lines 219-244). -/
def MeshNode.up (n : MeshNode) (r : Remote) (env : RemoteEnv) (write : Option Bool) : StepOut :=
  let w := effectiveWrite n r write
  if w then
    if env.writeOk then
      let o := MeshNode.upRest { r with config := some n.config } env true
      ⟨o.result, o.remote, RAction.configWrite :: o.trace⟩
    else
      -- config_write raised; the exception is caught and False returned
      ⟨.ok false, r, [RAction.configWrite]⟩
  else
    MeshNode.upRest r env false

/-- The tail of MeshNode.down (node.py lines 260-263): optional config
removal, then True. -/
def MeshNode.downRest (r : Remote) (remove : Option Bool) (tr : List RAction) : StepOut :=
  if remove = some true ∨ (remove = none ∧ r.config_exists = true) then
    match r.config_remove with
    | .error e => ⟨.error e, r, tr ++ [RAction.configRemove]⟩
    | .ok r' => ⟨.ok true, r', tr ++ [RAction.configRemove]⟩
  else
    ⟨.ok true, r, tr⟩

/-- MeshNode.down (node.py lines 246-263). -/
def MeshNode.down (_n : MeshNode) (r : Remote) (env : RemoteEnv) (remove : Option Bool) : StepOut :=
  if r.isUp then
    if env.downOk then
      MeshNode.downRest { r with isUp := false } remove [RAction.wgDown]
    else
      -- wg-quick down failed; the interface stays up in this model, so the
      -- `if not remote.is_up and remove: remote.config_remove()` branch of the
      -- source cannot fire
      if r.isUp = false ∧ remove = some true then
        match r.config_remove with
        | .error e => ⟨.error e, r, [RAction.wgDown, RAction.configRemove]⟩
        | .ok r' => ⟨.ok false, r', [RAction.wgDown, RAction.configRemove]⟩
      else
        ⟨.ok false, r, [RAction.wgDown]⟩
  else
    MeshNode.downRest r remove []

/-- MeshNode.sync (node.py lines 265-276).  The bare
`remote.config_write(self._config)` call is not wrapped in try, so a
failed write propagates as an exception. -/
def MeshNode.sync (n : MeshNode) (r : Remote) (env : RemoteEnv) (up : Option Bool) : StepOut :=
  let remote_config := r.config
  if remote_config = none ∨ remote_config ≠ some n.config then
    if up = some true ∨ (up = none ∧ r.isUp = true) then
      n.up r env (some true)
    else
      if env.writeOk then
        ⟨.ok true, { r with config := some n.config }, [RAction.configWrite]⟩
      else
        ⟨.error .unexpectedExit, r, [RAction.configWrite]⟩
  else
    ⟨.ok false, r, []⟩

/-- One mesh member together with its remote state and environment. -/
structure NodeSt where
  node : MeshNode
  remote : Remote
  env : RemoteEnv
deriving DecidableEq, Repr

/-- mesh.Mesh: name, peering policy and the node list in declaration
order. -/
structure Mesh where
  name : String
  full : Bool := true
  nodes : List NodeSt
deriving DecidableEq, Repr

/-- Mesh-level events: a `peer_with` call on the pair of node positions
(i, j), or a node-level verb on node position i with its inner trace. -/
inductive MEv where
  | peer (i j : Nat)
  | up (i : Nat) (acts : List RAction)
  | down (i : Nat) (acts : List RAction)
  | syncEv (i : Nat) (acts : List RAction)
deriving DecidableEq, Repr

/-- The guard of the pair sweep in Mesh.up (mesh.py line 102):
`any(isinstance(node.addr, RandomIPv6Address) or not node.config.peers for node in self.nodes)`. -/
def Mesh.needSweep (m : Mesh) : Bool :=
  m.nodes.any (fun s => s.node.addrIsRandom || s.node.config.peers.isEmpty)

/-- Placeholder node state used as the (never-reached) default of list
indexing during the pair sweep. -/
def dfltSt : NodeSt :=
  { node := { name := "", addr := ⟨⟨4, 0⟩, 1⟩, addrIsRandom := false
              endpointHost := "", endpointPort := none, listenPort := none
              json := none, prio := none, meshName := "", meshFull := true
              config := { privateKey := 0, addresses := [], listenPort := 0 } }
    remote := { config := none, isUp := false }
    env := {} }

/-- The index pairs produced by `itertools.combinations(nodes, 2)` on a
list whose positions start at `i`: (i,i+1), (i,i+2), ..., then the pairs
of the tail. -/
def allPairsFrom (i : Nat) : Nat → List (Nat × Nat)
  | 0 => []
  | len + 1 => (List.range len).map (fun k => (i, i + 1 + k)) ++ allPairsFrom (i + 1) len

/-- The pair sweep `for node1, node2 in self.pairs: node1.peer_with(node2)`
(mesh.py lines 104-105): `combinations` enumerates node objects and
`peer_with` mutates them in place, modelled by indexing and updating the
state list at the given positions. -/
def runPairs (psk : Nat → Nat → Nat) (cp : Nat → Nat → Bool) (σ : List NodeSt) :
    List (Nat × Nat) → Except PyErr (List NodeSt) × List MEv
  | [] => (.ok σ, [])
  | (i, j) :: ps =>
    match MeshNode.peer_with (σ.getD i dfltSt).node (σ.getD j dfltSt).node (psk i j) (cp i j) with
    | .error e => (.error e, [.peer i j])
    | .ok (a', b') =>
      let σ' := (σ.set i { σ.getD i dfltSt with node := a' }).set j
        { σ.getD j dfltSt with node := b' }
      match runPairs psk cp σ' ps with
      | (res, evs) => (res, .peer i j :: evs)

/-- The sweep phase of Mesh.up (mesh.py lines 102-105): run the pair
sweep iff `needSweep`. -/
def Mesh.sweepNodes (m : Mesh) (psk : Nat → Nat → Nat) (cp : Nat → Nat → Bool) :
    Except PyErr (List NodeSt) × List MEv :=
  if m.needSweep then runPairs psk cp m.nodes (allPairsFrom 0 m.nodes.length)
  else (.ok m.nodes, [])

/-- The `node.up(write=write)` call made by the Mesh.up loop for one
node state. -/
def upOut (write : Option Bool) (s : NodeSt) : StepOut :=
  s.node.up s.remote s.env write

/-- The compensating `up_node.down(remove=write)` call for a node that
succeeded coming up (its remote state is the post-up one). -/
def compOut (write : Option Bool) (s : NodeSt) : StepOut :=
  s.node.down (upOut write s).remote s.env write

/-- Compensation loop `for up_node in up_nodes: up_node.down(remove=write)`
(mesh.py lines 111-112); results are ignored, exceptions propagate. -/
def compensate (write : Option Bool) : List (Nat × NodeSt) → Except PyErr Unit × List MEv
  | [] => (.ok (), [])
  | (i, s) :: rest =>
    let o := compOut write s
    match o.result with
    | .error e => (.error e, [.down i o.trace])
    | .ok _ =>
      match compensate write rest with
      | (res, evs) => (res, .down i o.trace :: evs)

/-- The per-node loop of Mesh.up (mesh.py lines 107-115): bring nodes up
in iteration order, collecting successes; on the first failure compensate
and return False; at the end None for an empty run, else True. -/
def upLoop (write : Option Bool) : Nat → List (Nat × NodeSt) → List NodeSt →
    Except PyErr (Option Bool) × List MEv
  | _, ups, [] => (.ok (if ups.isEmpty then none else some true), [])
  | i, ups, s :: rest =>
    let o := upOut write s
    match o.result with
    | .error e => (.error e, [.up i o.trace])
    | .ok true =>
      match upLoop write (i+1) (ups ++ [(i, s)]) rest with
      | (res, evs) => (res, .up i o.trace :: evs)
    | .ok false =>
      match compensate write ups with
      | (.error e, cevs) => (.error e, .up i o.trace :: cevs)
      | (.ok (), cevs) => (.ok (some false), .up i o.trace :: cevs)

/-- Mesh.up (mesh.py lines 99-115). -/
def Mesh.up (m : Mesh) (psk : Nat → Nat → Nat) (cp : Nat → Nat → Bool)
    (write : Option Bool) : Except PyErr (Option Bool) × List MEv :=
  match m.sweepNodes psk cp with
  | (.error e, evs) => (.error e, evs)
  | (.ok nodes', evs) =>
    match upLoop write 0 [] nodes' with
    | (res, evs') => (res, evs ++ evs')

/-- The `node.down(remove=remove)` call made by Mesh.down for one node
state. -/
def downOut (remove : Option Bool) (s : NodeSt) : StepOut :=
  s.node.down s.remote s.env remove

/-- Mesh.down (mesh.py lines 117-118):
`all(node.down(remove=remove) for node in self.nodes)`; `all` over a
generator stops consuming at the first False. -/
def downAll (remove : Option Bool) : Nat → List NodeSt → Except PyErr Bool × List MEv
  | _, [] => (.ok true, [])
  | i, s :: rest =>
    let o := downOut remove s
    match o.result with
    | .error e => (.error e, [.down i o.trace])
    | .ok false => (.ok false, [.down i o.trace])
    | .ok true =>
      match downAll remove (i+1) rest with
      | (res, evs) => (res, .down i o.trace :: evs)

/-- Mesh.down entry point. -/
def Mesh.down (m : Mesh) (remove : Option Bool) : Except PyErr Bool × List MEv :=
  downAll remove 0 m.nodes

/-- The `node.sync(up=up)` call made by Mesh.sync for one node state. -/
def syncOut (up : Option Bool) (s : NodeSt) : StepOut :=
  s.node.sync s.remote s.env up

/-- Mesh.sync (mesh.py lines 120-121):
`all(node.sync(up=up) for node in self.nodes)`, short-circuiting like
Mesh.down. -/
def syncAll (up : Option Bool) : Nat → List NodeSt → Except PyErr Bool × List MEv
  | _, [] => (.ok true, [])
  | i, s :: rest =>
    let o := syncOut up s
    match o.result with
    | .error e => (.error e, [.syncEv i o.trace])
    | .ok false => (.ok false, [.syncEv i o.trace])
    | .ok true =>
      match syncAll up (i+1) rest with
      | (res, evs) => (res, .syncEv i o.trace :: evs)

/-- Mesh.sync entry point. -/
def Mesh.sync (m : Mesh) (up : Option Bool) : Except PyErr Bool × List MEv :=
  syncAll up 0 m.nodes

/-- Python true division, raising ZeroDivisionError on a zero
denominator; values are modelled as exact rationals. -/
def pyDiv (a b : ℚ) : Except PyErr ℚ :=
  if b = 0 then .error .zeroDivision else .ok (a / b)

/-- Mesh.is_up (mesh.py lines 38-40):
`sum(int(node.remote.is_up) for node in self.nodes) / len(self.nodes)`. -/
def Mesh.is_up (m : Mesh) : Except PyErr ℚ :=
  pyDiv (m.nodes.map (fun s => if s.remote.isUp then (1 : ℚ) else 0)).sum
    (m.nodes.length : ℚ)

/-- Mesh.config_exists (mesh.py lines 42-44). -/
def Mesh.config_exists_frac (m : Mesh) : Except PyErr ℚ :=
  pyDiv (m.nodes.map (fun s => if s.remote.config_exists then (1 : ℚ) else 0)).sum
    (m.nodes.length : ℚ)

/-- The fields of the Mesh.info dict up to the per-node entries. -/
structure MeshInfo where
  name : String
  is_up : ℚ
  config_exists : ℚ
deriving DecidableEq, Repr

/-- Mesh.info (mesh.py lines 46-54): the dict kwargs evaluate in order
name, network, is_up, config_exists, nodes; a raised ZeroDivisionError
propagates.  The nodes comprehension is `{node.idx: node.info ...}` and
the staged MeshNode (node.py / types.py) defines `index` but no `idx`
attribute, so on any nonempty mesh it raises AttributeError at the
first node (the remaining per-node reads of `node.info` cannot raise). -/
def Mesh.info (m : Mesh) : Except PyErr MeshInfo :=
  match m.is_up with
  | .error e => .error e
  | .ok u =>
    match m.config_exists_frac with
    | .error e => .error e
    | .ok c =>
      match m.nodes with
      | [] => .ok ⟨m.name, u, c⟩
      | _ :: _ => .error (.attributeError "idx")

/-! Concrete sample data used by witnesses and counterexamples. -/

/-- Sample tunnel address of node a (random ULA /128). -/
def tunA : IpInterface := ⟨⟨6, 100⟩, 128⟩

/-- Sample tunnel address of node b. -/
def tunB : IpInterface := ⟨⟨6, 200⟩, 128⟩

/-- Sample bridge address of node a (10.0.0.1/24). -/
def brA : IpInterface := ⟨⟨4, 167772161⟩, 24⟩

/-- Sample bridge address of node b (10.0.0.2/24). -/
def brB : IpInterface := ⟨⟨4, 167772162⟩, 24⟩

/-- Sample desired config of node a, no peers yet. -/
def cfgA : WgConfig := { privateKey := 1, addresses := [tunA], listenPort := 51820 }

/-- Sample desired config of node b, no peers yet. -/
def cfgB : WgConfig := { privateKey := 2, addresses := [tunB], listenPort := 51820 }

/-- Sample mesh node a. -/
def nodeA : MeshNode :=
  { name := "a", addr := brA, addrIsRandom := false, endpointHost := "ep-a"
    endpointPort := none, listenPort := none, json := none, prio := none
    meshName := "m", meshFull := true, config := cfgA }

/-- Sample mesh node b. -/
def nodeB : MeshNode :=
  { name := "b", addr := brB, addrIsRandom := false, endpointHost := "ep-b"
    endpointPort := none, listenPort := none, json := none, prio := none
    meshName := "m", meshFull := true, config := cfgB }

/-- Peer record for b as stored on a after a fresh peering with key 7. -/
def peerEntryB : WgPeer := nodeB.as_peer (some 7)

/-- Peer record for a as stored on b after a fresh peering with key 7. -/
def peerEntryA : WgPeer := nodeA.as_peer (some 7)

/-- Node a with b already recorded as a peer. -/
def nodeA' : MeshNode :=
  { nodeA with config := { cfgA with peers := [(2, peerEntryB)] } }

/-- Node b with a already recorded as a peer. -/
def nodeB' : MeshNode :=
  { nodeB with config := { cfgB with peers := [(1, peerEntryA)] } }

/-- An environment in which every remote operation succeeds. -/
def envOk : RemoteEnv := {}

/-- An environment in which `wg-quick up` fails. -/
def envUpFails : RemoteEnv := { upOk := false }

/-- An environment in which `wg-quick down` fails. -/
def envDownFails : RemoteEnv := { downOk := false }

/-- A one-node mesh state whose node is up and configured. -/
def meshOne : Mesh := ⟨"m", true, [⟨nodeA', ⟨some nodeA'.config, true⟩, envOk⟩]⟩

/-- The empty mesh. -/
def meshNil : Mesh := ⟨"m", true, []⟩

/-- Indicator sums over a node list are between 0 and the list length. -/
theorem indicator_sum_bounds (l : List NodeSt) (f : NodeSt → Bool) :
    0 ≤ (l.map (fun s => if f s then (1 : ℚ) else 0)).sum ∧
    (l.map (fun s => if f s then (1 : ℚ) else 0)).sum ≤ (l.length : ℚ) := by
  induction l with
  | nil => simp
  | cons s t ih =>
    simp only [List.map_cons, List.sum_cons, List.length_cons]
    push_cast
    constructor
    · have h0 : (0 : ℚ) ≤ if f s then (1 : ℚ) else 0 := by split <;> norm_num
      linarith [ih.1]
    · have h1 : (if f s then (1 : ℚ) else 0) ≤ 1 := by split <;> norm_num
      linarith [ih.2]

/-- C6: for every remote whose WireGuard interface is currently up,
config_remove raises a RuntimeError without executing the file removal,
leaving the on-disk config in place; when the interface is not up it
removes the file. -/
theorem c6_config_remove_refuses_while_up (r : Remote) :
    (r.isUp = true →
      r.config_remove = .error (.runtimeError "Cannot remove config while interface is up")) ∧
    (r.isUp = false → r.config_remove = .ok { r with config := none }) := by
  constructor <;> intro h <;> simp [Remote.config_remove, h]

/-- Witness for C6 at a concrete configured remote, up and not up. -/
theorem c6_config_remove_refuses_while_up_witness :
    Remote.config_remove ⟨some cfgA, true⟩ =
      .error (.runtimeError "Cannot remove config while interface is up") ∧
    Remote.config_remove ⟨some cfgA, false⟩ = .ok ⟨none, false⟩ :=
  ⟨(c6_config_remove_refuses_while_up ⟨some cfgA, true⟩).1 rfl,
   (c6_config_remove_refuses_while_up ⟨some cfgA, false⟩).2 rfl⟩

/-- C9: when the two nodes' WireGuard public keys are equal (including a
node paired with itself), peer_with raises ValueError; the source raises
before any mutation, and accordingly the model returns the error with no
updated node states. -/
theorem c9_peer_with_self_rejected (a b : MeshNode) (psk : Nat) (cp : Bool)
    (h : publicKey a.config.privateKey = publicKey b.config.privateKey) :
    a.peer_with b psk cp = .error (.valueError "Cannot peer with self") := by
  simp [MeshNode.peer_with, h]

/-- Witness for C9: a node peered with itself. -/
theorem c9_peer_with_self_rejected_witness :
    MeshNode.peer_with nodeA nodeA 7 true = .error (.valueError "Cannot peer with self") :=
  c9_peer_with_self_rejected nodeA nodeA 7 true rfl

/-- C10: Mesh.is_up and Mesh.config_exists divide the count of
up/configured nodes by the node count: on a nonempty mesh both are
fractions in [0,1]; on the empty mesh both raise ZeroDivisionError and
so does info (which evaluates is_up first), while Mesh.up on the empty
mesh returns None.  On a nonempty mesh info also fails, but with
AttributeError: its nodes entry reads the nonexistent `node.idx`. -/
theorem c10_fraction_health (m : Mesh) :
    (m.nodes ≠ [] → ∃ u c, m.is_up = .ok u ∧ m.config_exists_frac = .ok c ∧
      0 ≤ u ∧ u ≤ 1 ∧ 0 ≤ c ∧ c ≤ 1 ∧ m.info = .error (.attributeError "idx")) ∧
    (m.nodes = [] → m.is_up = .error .zeroDivision ∧
      m.config_exists_frac = .error .zeroDivision ∧ m.info = .error .zeroDivision) ∧
    (m.nodes = [] → ∀ psk cp write, m.up psk cp write = (.ok none, [])) := by
  refine ⟨?_, ?_, ?_⟩
  · intro hne
    have hlen : (m.nodes.length : ℚ) ≠ 0 := by
      simp only [ne_eq, Nat.cast_eq_zero, List.length_eq_zero]
      exact hne
    have hlpos : (0 : ℚ) < (m.nodes.length : ℚ) := by
      rcases Nat.eq_zero_or_pos m.nodes.length with h0 | h0
      · exact absurd (by exact_mod_cast h0) hlen
      · exact_mod_cast h0
    have hu := indicator_sum_bounds m.nodes (fun s => s.remote.isUp)
    have hc := indicator_sum_bounds m.nodes (fun s => s.remote.config_exists)
    refine ⟨(m.nodes.map (fun s => if s.remote.isUp then (1 : ℚ) else 0)).sum / (m.nodes.length : ℚ),
      (m.nodes.map (fun s => if s.remote.config_exists then (1 : ℚ) else 0)).sum / (m.nodes.length : ℚ),
      ?_, ?_, ?_, ?_, ?_, ?_, ?_⟩
    · simp [Mesh.is_up, pyDiv, hlen]
    · simp [Mesh.config_exists_frac, pyDiv, hlen]
    · exact div_nonneg hu.1 (le_of_lt hlpos)
    · exact (div_le_one hlpos).mpr hu.2
    · exact div_nonneg hc.1 (le_of_lt hlpos)
    · exact (div_le_one hlpos).mpr hc.2
    · rcases hn : m.nodes with _ | ⟨s, rest⟩
      · exact absurd hn hne
      · have hne' : ((rest.length : ℚ) + 1) ≠ 0 := by positivity
        simp [Mesh.info, Mesh.is_up, Mesh.config_exists_frac, pyDiv, hn, hne']
  · intro he
    refine ⟨?_, ?_, ?_⟩ <;>
      simp [Mesh.is_up, Mesh.config_exists_frac, Mesh.info, pyDiv, he]
  · intro he psk cp write
    simp [Mesh.up, Mesh.sweepNodes, Mesh.needSweep, he, upLoop]

/-- Witness for C10 at a concrete one-node mesh and the empty mesh. -/
theorem c10_fraction_health_witness :
    (∃ u c, meshOne.is_up = .ok u ∧ meshOne.config_exists_frac = .ok c ∧
      0 ≤ u ∧ u ≤ 1 ∧ 0 ≤ c ∧ c ≤ 1 ∧ meshOne.info = .error (.attributeError "idx")) ∧
    (meshNil.is_up = .error .zeroDivision ∧
      meshNil.config_exists_frac = .error .zeroDivision ∧
      meshNil.info = .error .zeroDivision) ∧
    meshNil.up (fun _ _ => 7) (fun _ _ => true) none = (.ok none, []) :=
  ⟨(c10_fraction_health meshOne).1 (by decide),
   (c10_fraction_health meshNil).2.1 rfl,
   (c10_fraction_health meshNil).2.2 rfl (fun _ _ => 7) (fun _ _ => true) none⟩

/-- The phases of up after the write never invoke config_write. -/
theorem upRest_no_configWrite (r : Remote) (env : RemoteEnv) (w : Bool) :
    RAction.configWrite ∉ (MeshNode.upRest r env w).trace := by
  rcases r with ⟨c, iu⟩
  rcases env with ⟨wo, uo, dk⟩
  cases iu <;> cases w <;> cases uo <;> cases dk <;>
    simp [MeshNode.upRest, Remote.config_remove]

/-- Without an effective write, the later phases of up leave the on-disk
config untouched. -/
theorem upRest_config_preserved (r : Remote) (env : RemoteEnv) :
    (MeshNode.upRest r env false).remote.config = r.config := by
  rcases r with ⟨c, iu⟩
  rcases env with ⟨wo, uo, dk⟩
  cases iu <;> cases uo <;> cases dk <;>
    simp [MeshNode.upRest, Remote.config_remove]

/-- config_write is invoked by up exactly when the walrus chain computes
an effective write. -/
theorem up_configWrite_iff (n : MeshNode) (r : Remote) (env : RemoteEnv) (write : Option Bool) :
    RAction.configWrite ∈ (n.up r env write).trace ↔ effectiveWrite n r write = true := by
  unfold MeshNode.up
  by_cases h : effectiveWrite n r write = true
  · cases hw : env.writeOk <;> simp [h, hw]
  · simp only [Bool.not_eq_true] at h
    simp [h, upRest_no_configWrite]

/-- C2 (amended): up(write=false) invokes config_write iff the remote
config differs from the desired one (in particular also when no remote
config exists) - not never, as the walrus chain at node.py line 222
evaluates the diff-check disjunct also for write=False; write=true
always writes, and write=None writes iff the remote config is absent or
differs.  When the configs agree, write=false leaves the remote file
unchanged. -/
theorem c2_up_write_modes (n : MeshNode) (r : Remote) (env : RemoteEnv) :
    (RAction.configWrite ∈ (n.up r env (some false)).trace ↔ r.config ≠ some n.config) ∧
    RAction.configWrite ∈ (n.up r env (some true)).trace ∧
    (RAction.configWrite ∈ (n.up r env none).trace ↔
      (r.config = none ∨ r.config ≠ some n.config)) ∧
    (r.config = some n.config → (n.up r env (some false)).remote.config = r.config) := by
  refine ⟨?_, ?_, ?_, ?_⟩
  · rw [up_configWrite_iff]
    simp [effectiveWrite]
  · rw [up_configWrite_iff]
    simp [effectiveWrite]
  · rw [up_configWrite_iff]
    rcases hc : r.config with _ | c
    · simp [effectiveWrite, Remote.config_exists, hc]
    · simp [effectiveWrite, Remote.config_exists, hc]
  · intro h
    have hw : effectiveWrite n r (some false) = false := by
      simp [effectiveWrite, h]
    unfold MeshNode.up
    rw [hw]
    simp [upRest_config_preserved]

/-- Witness for C2 (amended) at a node whose remote config matches. -/
theorem c2_up_write_modes_witness :
    (RAction.configWrite ∈ (MeshNode.up nodeA ⟨some cfgA, false⟩ envOk (some false)).trace ↔
      (some cfgA : Option WgConfig) ≠ some nodeA.config) ∧
    RAction.configWrite ∈ (MeshNode.up nodeA ⟨some cfgA, false⟩ envOk (some true)).trace ∧
    (RAction.configWrite ∈ (MeshNode.up nodeA ⟨some cfgA, false⟩ envOk none).trace ↔
      ((some cfgA : Option WgConfig) = none ∨ (some cfgA : Option WgConfig) ≠ some nodeA.config)) ∧
    ((some cfgA : Option WgConfig) = some nodeA.config →
      (MeshNode.up nodeA ⟨some cfgA, false⟩ envOk (some false)).remote.config = some cfgA) :=
  c2_up_write_modes nodeA ⟨some cfgA, false⟩ envOk

/-- C2 counterexample: with write=false and no remote config (which
differs from the desired config), up invokes config_write and the remote
file changes - refuting that write=false never writes. -/
theorem c2_counterexample :
    RAction.configWrite ∈ (MeshNode.up nodeA ⟨none, false⟩ envOk (some false)).trace ∧
    (MeshNode.up nodeA ⟨none, false⟩ envOk (some false)).remote.config = some nodeA.config ∧
    (MeshNode.up nodeA ⟨none, false⟩ envOk (some false)).remote.config ≠ none := by
  decide

/-- C8 (amended): sync returns false without writing when the remote
config equals the desired one; when it is missing or differs, sync
either delegates to up(write=true) - whose result can be false when
bringing the interface up fails, despite the config having been written -
or writes the config and returns true.  On a nonempty already-converged
mesh, Mesh.sync stops at the first node (all() short-circuits on its
False), performs zero config_write invocations and returns false. -/
theorem c8_sync_change_detection (n : MeshNode) (r : Remote) (env : RemoteEnv)
    (up : Option Bool) (m : Mesh) (upArg : Option Bool) :
    (r.config = some n.config → n.sync r env up = ⟨.ok false, r, []⟩) ∧
    (r.config ≠ some n.config → (up = some true ∨ (up = none ∧ r.isUp = true)) →
      n.sync r env up = n.up r env (some true)) ∧
    (r.config ≠ some n.config → ¬(up = some true ∨ (up = none ∧ r.isUp = true)) →
      env.writeOk = true →
      n.sync r env up = ⟨.ok true, { r with config := some n.config }, [RAction.configWrite]⟩) ∧
    (m.nodes ≠ [] → (∀ s ∈ m.nodes, s.remote.config = some s.node.config) →
      m.sync upArg = (.ok false, [.syncEv 0 []])) := by
  refine ⟨?_, ?_, ?_, ?_⟩
  · intro h
    simp [MeshNode.sync, h]
  · intro h hup
    simp [MeshNode.sync, h, hup]
  · intro h hup hw
    simp [MeshNode.sync, h, hup, hw]
  · intro hne hconv
    rcases hn : m.nodes with _ | ⟨s, rest⟩
    · exact absurd hn hne
    · have hs : s.remote.config = some s.node.config := hconv s (by rw [hn]; exact List.mem_cons_self s rest)
      have hsync : syncOut upArg s = ⟨.ok false, s.remote, []⟩ := by
        simp [syncOut, MeshNode.sync, hs]
      simp [Mesh.sync, hn, syncAll, hsync]

/-- Witness for C8 (amended) at a converged node and a converged
one-node mesh. -/
theorem c8_sync_change_detection_witness :
    ((some nodeA.config : Option WgConfig) = some nodeA.config →
      MeshNode.sync nodeA ⟨some nodeA.config, false⟩ envOk none =
        ⟨.ok false, ⟨some nodeA.config, false⟩, []⟩) ∧
    meshOne.sync none = (.ok false, [.syncEv 0 []]) :=
  ⟨fun h => (c8_sync_change_detection nodeA ⟨some nodeA.config, false⟩ envOk none meshOne none).1 h,
   (c8_sync_change_detection nodeA ⟨some nodeA.config, false⟩ envOk none meshOne none).2.2.2
     (by decide) (by decide)⟩

/-- C8 counterexample: the remote config is missing (hence differs), sync
takes the up(write=true) path, the config is written, but wg-quick up
fails, so sync returns false - refuting that sync returns true whenever
the remote config was missing or different. -/
theorem c8_counterexample :
    (⟨none, false⟩ : Remote).config ≠ some nodeA.config ∧
    RAction.configWrite ∈ (MeshNode.sync nodeA ⟨none, false⟩ envUpFails (some true)).trace ∧
    (MeshNode.sync nodeA ⟨none, false⟩ envUpFails (some true)).result = .ok false := by
  decide

/-- The mesh-level events produced when `node.down` is invoked on each
listed node in order, starting at position i. -/
def downEvs (remove : Option Bool) (i : Nat) : List NodeSt → List MEv
  | [] => []
  | s :: rest => .down i (downOut remove s).trace :: downEvs remove (i + 1) rest

/-- When every per-node down returns True, Mesh.down visits all nodes
and returns True. -/
theorem downAll_all_true (remove : Option Bool) :
    ∀ (ss : List NodeSt) (i : Nat), (∀ s ∈ ss, (downOut remove s).result = .ok true) →
      downAll remove i ss = (.ok true, downEvs remove i ss) := by
  intro ss
  induction ss with
  | nil => intro i _; simp [downAll, downEvs]
  | cons s rest ih =>
    intro i h
    have hs := h s (List.mem_cons_self s rest)
    have hrest := ih (i + 1) (fun t ht => h t (List.mem_cons_of_mem s ht))
    simp [downAll, downEvs, hs, hrest]

/-- When a node's down returns False, Mesh.down stops there. -/
theorem downAll_first_false (remove : Option Bool) :
    ∀ (pre : List NodeSt) (i : Nat) (s : NodeSt) (post : List NodeSt),
      (∀ t ∈ pre, (downOut remove t).result = .ok true) →
      (downOut remove s).result = .ok false →
      downAll remove i (pre ++ s :: post) =
        (.ok false, downEvs remove i pre ++ [.down (i + pre.length) (downOut remove s).trace]) := by
  intro pre
  induction pre with
  | nil =>
    intro i s post _ hs
    simp [downAll, downEvs, hs]
  | cons t rest ih =>
    intro i s post hpre hs
    have ht := hpre t (List.mem_cons_self t rest)
    have hrec := ih (i + 1) s post (fun u hu => hpre u (List.mem_cons_of_mem t hu)) hs
    have harith : i + 1 + rest.length = i + (rest.length + 1) := by omega
    simp [downAll, downEvs, ht, hrec, harith]

/-- C3 (amended): Mesh.down invokes node.down sequentially in iteration
order but `all` over the generator stops at the first node whose down
returns False - later nodes are not invoked; it returns True iff every
node was invoked and returned True. -/
theorem c3_down_stops_at_first_failure (m : Mesh) (remove : Option Bool) :
    ((∀ s ∈ m.nodes, (downOut remove s).result = .ok true) →
      m.down remove = (.ok true, downEvs remove 0 m.nodes)) ∧
    (∀ pre s post, m.nodes = pre ++ s :: post →
      (∀ t ∈ pre, (downOut remove t).result = .ok true) →
      (downOut remove s).result = .ok false →
      m.down remove =
        (.ok false, downEvs remove 0 pre ++ [.down pre.length (downOut remove s).trace])) := by
  constructor
  · intro h
    exact downAll_all_true remove m.nodes 0 h
  · intro pre s post hn hpre hs
    have := downAll_first_false remove pre 0 s post hpre hs
    simp only [Nat.zero_add] at this
    rw [Mesh.down, hn, this]

/-- Witness for C3 (amended): a 2-node mesh where the first node's down
fails; only node 0 receives a down call. -/
theorem c3_down_stops_at_first_failure_witness :
    Mesh.down ⟨"m", true, [⟨nodeA', ⟨some nodeA'.config, true⟩, envDownFails⟩,
        ⟨nodeB', ⟨some nodeB'.config, true⟩, envOk⟩]⟩ none =
      (.ok false, downEvs none 0 [] ++
        [.down 0 (downOut none ⟨nodeA', ⟨some nodeA'.config, true⟩, envDownFails⟩).trace]) :=
  (c3_down_stops_at_first_failure
      ⟨"m", true, [⟨nodeA', ⟨some nodeA'.config, true⟩, envDownFails⟩,
        ⟨nodeB', ⟨some nodeB'.config, true⟩, envOk⟩]⟩ none).2
    [] ⟨nodeA', ⟨some nodeA'.config, true⟩, envDownFails⟩
    [⟨nodeB', ⟨some nodeB'.config, true⟩, envOk⟩] rfl (by simp) (by decide)

/-- C3 counterexample: in the same 2-node mesh, the aggregate stops after
node 0's failed down; node 1 never receives a down call, refuting that
Mesh.down invokes down on every node. -/
theorem c3_counterexample :
    Mesh.down ⟨"m", true, [⟨nodeA', ⟨some nodeA'.config, true⟩, envDownFails⟩,
        ⟨nodeB', ⟨some nodeB'.config, true⟩, envOk⟩]⟩ none =
      (.ok false, [.down 0 [RAction.wgDown]]) := by
  decide

/-- Boolean key comparison is false for distinct keys. -/
theorem beq_false_of_ne_nat {a b : Nat} (h : a ≠ b) : (a == b) = false := by
  cases hb : a == b
  · rfl
  · exact absurd (eq_of_beq hb) h

/-- A key absent from the peers dict matches no entry. -/
theorem lookupPeer_none_filter (k : Nat) :
    ∀ l : List (Nat × WgPeer), lookupPeer k l = none →
      l.filter (fun kp => kp.1 == k) = [] := by
  intro l
  induction l with
  | nil => intro _; rfl
  | cons kp rest ih =>
    intro h
    rcases kp with ⟨k0, p0⟩
    by_cases hk : k0 = k
    · simp [lookupPeer, hk] at h
    · have hrest : lookupPeer k rest = none := by
        simpa [lookupPeer, hk] using h
      simp [List.filter, beq_false_of_ne_nat hk, ih hrest]

/-- updatePeer does not change the keys of the dict. -/
theorem updatePeer_map_fst (k : Nat) (f : WgPeer → WgPeer) (l : List (Nat × WgPeer)) :
    (updatePeer k f l).map Prod.fst = l.map Prod.fst := by
  induction l with
  | nil => rfl
  | cons kp rest ih =>
    rcases kp with ⟨k0, p0⟩
    by_cases hk : k0 = k <;> simp [updatePeer, hk] <;>
      simpa [updatePeer] using ih

/-- A key not among the dict keys matches no entry. -/
theorem filter_key_eq_nil (k : Nat) :
    ∀ l : List (Nat × WgPeer), k ∉ l.map Prod.fst →
      l.filter (fun kp => kp.1 == k) = [] := by
  intro l
  induction l with
  | nil => intro _; rfl
  | cons kp rest ih =>
    intro h
    rcases kp with ⟨k0, p0⟩
    simp only [List.map_cons, List.mem_cons] at h
    push_neg at h
    have hk : k0 ≠ k := fun he => h.1 he.symm
    simp [List.filter, beq_false_of_ne_nat hk, ih h.2]

/-- Replacing the (unique, by dict-nodup) entry at a present key leaves
exactly that one entry matching the key. -/
theorem updatePeer_filter_replace (k : Nat) (p : WgPeer) :
    ∀ l : List (Nat × WgPeer), (l.map Prod.fst).Nodup → (lookupPeer k l).isSome →
      (updatePeer k (fun _ => p) l).filter (fun kp => kp.1 == k) = [(k, p)] := by
  intro l
  induction l with
  | nil => intro _ h; simp [lookupPeer] at h
  | cons kp rest ih =>
    intro hnd hsome
    rcases kp with ⟨k0, p0⟩
    simp only [List.map_cons, List.nodup_cons] at hnd
    by_cases hk : k0 = k
    · subst hk
      have hnot : k0 ∉ (updatePeer k0 (fun _ => p) rest).map Prod.fst := by
        rw [updatePeer_map_fst]
        exact hnd.1
      have htail := filter_key_eq_nil k0 _ hnot
      simp only [updatePeer] at htail
      simp [updatePeer, List.filter, beq_iff_eq, htail]
    · have hrest : (lookupPeer k rest).isSome := by
        simpa [lookupPeer, hk] using hsome
      have htail := ih hnd.2 hrest
      simp only [updatePeer] at htail
      simp [updatePeer, List.filter, beq_false_of_ne_nat hk, hk, htail]

/-- After add_peer, exactly one entry carries the new peer's public key,
and it holds the new peer. -/
theorem add_peer_filter (c : WgConfig) (p : WgPeer)
    (hnd : (c.peers.map Prod.fst).Nodup) :
    (c.add_peer p).peers.filter (fun kp => kp.1 == p.publicKey) = [(p.publicKey, p)] := by
  unfold WgConfig.add_peer
  by_cases hl : (lookupPeer p.publicKey c.peers).isSome
  · simp only [hl, if_true]
    exact updatePeer_filter_replace p.publicKey p c.peers hnd hl
  · simp only [hl, if_false]
    have hnone : lookupPeer p.publicKey c.peers = none := by
      rcases h : lookupPeer p.publicKey c.peers with _ | q
      · rfl
      · rw [h] at hl; simp at hl
    simp [List.filter_append, lookupPeer_none_filter _ _ hnone, List.filter]

/-- C5: a fresh peering between two distinct nodes installs on each side
exactly one peer record for the other, whose allowed_ips is exactly the
other's tunnel /128 address, with the same preshared key (generated once
for the pair) on both records, and no overlay (bridge) address appears
among the allowed_ips.  The dict hypotheses (Nodup keys) reflect the
Python dict the peers live in. -/
theorem c5_peer_with_fresh_symmetry (a b : MeshNode) (psk : Nat) (cp : Bool)
    (hk : publicKey a.config.privateKey ≠ publicKey b.config.privateKey)
    (hnew : lookupPeer (publicKey a.config.privateKey) b.config.peers = none ∨
            lookupPeer (publicKey b.config.privateKey) a.config.peers = none)
    (hgo : a.meshFull = true ∨ cp = true)
    (hndA : (a.config.peers.map Prod.fst).Nodup)
    (hndB : (b.config.peers.map Prod.fst).Nodup) :
    ∃ a' b', a.peer_with b psk cp = .ok (a', b') ∧
      a'.config.peers.filter (fun kp => kp.1 == publicKey b.config.privateKey) =
        [(publicKey b.config.privateKey, b.as_peer (some psk))] ∧
      b'.config.peers.filter (fun kp => kp.1 == publicKey a.config.privateKey) =
        [(publicKey a.config.privateKey, a.as_peer (some psk))] ∧
      (b.as_peer (some psk)).allowedIps = [b.wg_addr] ∧
      (a.as_peer (some psk)).allowedIps = [a.wg_addr] ∧
      (b.as_peer (some psk)).presharedKey = some psk ∧
      (a.as_peer (some psk)).presharedKey = some psk ∧
      (b.wg_addr ≠ a.addr → b.wg_addr ≠ b.addr →
        ∀ x ∈ (b.as_peer (some psk)).allowedIps, x ≠ a.addr ∧ x ≠ b.addr) ∧
      (a.wg_addr ≠ a.addr → a.wg_addr ≠ b.addr →
        ∀ x ∈ (a.as_peer (some psk)).allowedIps, x ≠ a.addr ∧ x ≠ b.addr) := by
  have hskip : (!a.meshFull && !cp) = false := by
    rcases hgo with hg | hg <;> simp [hg]
  have hfA := add_peer_filter a.config (b.as_peer (some psk)) hndA
  have hfB := add_peer_filter b.config (a.as_peer (some psk)) hndB
  have hpkB : (b.as_peer (some psk)).publicKey = publicKey b.config.privateKey := rfl
  have hpkA : (a.as_peer (some psk)).publicKey = publicKey a.config.privateKey := rfl
  rw [hpkB] at hfA
  rw [hpkA] at hfB
  unfold MeshNode.peer_with
  rcases hA : lookupPeer (publicKey a.config.privateKey) b.config.peers with _ | tp <;>
    rcases hB : lookupPeer (publicKey b.config.privateKey) a.config.peers with _ | sp <;>
    [skip; skip; skip;
      (rcases hnew with hno | hno
       · rw [hA] at hno; exact absurd hno (by simp)
       · rw [hB] at hno; exact absurd hno (by simp))] <;>
    simp only [hA, hB, hk, hskip, Bool.false_eq_true, if_false] <;>
    refine ⟨_, _, rfl, ?_, ?_, rfl, rfl, rfl, rfl, ?_, ?_⟩ <;>
    [exact hfA; exact hfB; skip; skip;
     exact hfA; exact hfB; skip; skip;
     exact hfA; exact hfB; skip; skip] <;>
    (intro h1 h2 x hx
     simp only [MeshNode.as_peer, List.mem_singleton] at hx
     exact hx ▸ ⟨h1, h2⟩)

/-- Witness for C5: a fresh peering of the two concrete sample nodes. -/
theorem c5_peer_with_fresh_symmetry_witness :
    ∃ a' b', MeshNode.peer_with nodeA nodeB 7 true = .ok (a', b') ∧
      a'.config.peers.filter (fun kp => kp.1 == publicKey nodeB.config.privateKey) =
        [(publicKey nodeB.config.privateKey, nodeB.as_peer (some 7))] ∧
      b'.config.peers.filter (fun kp => kp.1 == publicKey nodeA.config.privateKey) =
        [(publicKey nodeA.config.privateKey, nodeA.as_peer (some 7))] ∧
      (nodeB.as_peer (some 7)).allowedIps = [nodeB.wg_addr] ∧
      (nodeA.as_peer (some 7)).allowedIps = [nodeA.wg_addr] ∧
      (nodeB.as_peer (some 7)).presharedKey = some 7 ∧
      (nodeA.as_peer (some 7)).presharedKey = some 7 ∧
      (nodeB.wg_addr ≠ nodeA.addr → nodeB.wg_addr ≠ nodeB.addr →
        ∀ x ∈ (nodeB.as_peer (some 7)).allowedIps, x ≠ nodeA.addr ∧ x ≠ nodeB.addr) ∧
      (nodeA.wg_addr ≠ nodeA.addr → nodeA.wg_addr ≠ nodeB.addr →
        ∀ x ∈ (nodeA.as_peer (some 7)).allowedIps, x ≠ nodeA.addr ∧ x ≠ nodeB.addr) :=
  c5_peer_with_fresh_symmetry nodeA nodeB 7 true (by decide) (Or.inl rfl) (Or.inl rfl)
    (by decide) (by decide)

/-- The non-friendly payload of a peer record: public key, preshared
key, allowed_ips, endpoint. -/
def WgPeer.core (p : WgPeer) : Nat × Option Nat × List IpInterface × String × Nat :=
  (p.publicKey, p.presharedKey, p.allowedIps, p.endpointHost, p.endpointPort)

/-- Metadata reconciliation touches only friendly_name/friendly_json. -/
theorem reconcileFriendly_core (j : Option String) (nm : String) (p : WgPeer) :
    ((reconcileFriendly j nm p).2).core = p.core := by
  unfold reconcileFriendly
  split <;> rename_i h1 <;> split at h1 <;> (try split at h1) <;> cases h1 <;>
    (first
      | (split <;> simp [WgPeer.core])
      | simp [WgPeer.core])

/-- Updating an absent key is the identity. -/
theorem updatePeer_not_mem (k : Nat) (f : WgPeer → WgPeer) :
    ∀ l : List (Nat × WgPeer), k ∉ l.map Prod.fst → updatePeer k f l = l := by
  intro l
  induction l with
  | nil => intro _; rfl
  | cons kp rest ih =>
    intro h
    rcases kp with ⟨k0, p0⟩
    simp only [List.map_cons, List.mem_cons] at h
    push_neg at h
    have hk : k0 ≠ k := fun he => h.1 he.symm
    simp [updatePeer, hk]
    simpa [updatePeer] using ih h.2

/-- Replacing the entry at a present key with a record of equal payload
leaves the payload view of the dict unchanged. -/
theorem updatePeer_map_core {γ : Type} (k : Nat) (p' q : WgPeer) (g : WgPeer → γ) :
    ∀ l : List (Nat × WgPeer), (l.map Prod.fst).Nodup → lookupPeer k l = some q →
      g p' = g q →
      (updatePeer k (fun _ => p') l).map (fun kp => (kp.1, g kp.2)) =
        l.map (fun kp => (kp.1, g kp.2)) := by
  intro l
  induction l with
  | nil => intro _ h _; simp [lookupPeer] at h
  | cons kp rest ih =>
    intro hnd hlk hg
    rcases kp with ⟨k0, p0⟩
    simp only [List.map_cons, List.nodup_cons] at hnd
    by_cases hk : k0 = k
    · subst hk
      have hq : p0 = q := by simpa [lookupPeer] using hlk
      have hrest : updatePeer k0 (fun _ => p') rest = rest :=
        updatePeer_not_mem k0 _ rest hnd.1
      simp only [updatePeer] at hrest
      simp [updatePeer, hrest, hq ▸ hg]
    · have hlk' : lookupPeer k rest = some q := by simpa [lookupPeer, hk] using hlk
      have := ih hnd.2 hlk' hg
      simp only [updatePeer] at this
      simp [updatePeer, hk, this]

/-- C7: when both nodes already carry each other as peers, a further
peer_with is a refresh: if each stored record's allowed_ips[0] equals
the corresponding tunnel address, the peer keys, preshared keys,
allowed_ips, endpoints, postup/predown fragments and remaining config
fields are all unchanged (only friendly metadata may be reconciled), so
no duplicate peer entry or GRETAP fragment is added; if either
allowed_ips[0] mismatches, peer_with raises the address-mismatch error. -/
theorem c7_peer_with_refresh (a b : MeshNode) (psk : Nat) (cp : Bool)
    (tp sp : WgPeer) (x y : IpInterface)
    (hk : publicKey a.config.privateKey ≠ publicKey b.config.privateKey)
    (hthis : lookupPeer (publicKey a.config.privateKey) b.config.peers = some tp)
    (hthat : lookupPeer (publicKey b.config.privateKey) a.config.peers = some sp)
    (hx : tp.allowedIps.head? = some x)
    (hy : sp.allowedIps.head? = some y)
    (hndA : (a.config.peers.map Prod.fst).Nodup)
    (hndB : (b.config.peers.map Prod.fst).Nodup) :
    (x = a.wg_addr → y = b.wg_addr →
      ∃ a' b', a.peer_with b psk cp = .ok (a', b') ∧
        a'.config.peers.map (fun kp => (kp.1, kp.2.core)) =
          a.config.peers.map (fun kp => (kp.1, kp.2.core)) ∧
        b'.config.peers.map (fun kp => (kp.1, kp.2.core)) =
          b.config.peers.map (fun kp => (kp.1, kp.2.core)) ∧
        a'.config.postup = a.config.postup ∧ a'.config.predown = a.config.predown ∧
        b'.config.postup = b.config.postup ∧ b'.config.predown = b.config.predown ∧
        a'.config.privateKey = a.config.privateKey ∧
        a'.config.addresses = a.config.addresses ∧
        b'.config.privateKey = b.config.privateKey ∧
        b'.config.addresses = b.config.addresses) ∧
    ((x ≠ a.wg_addr ∨ y ≠ b.wg_addr) →
      a.peer_with b psk cp =
        .error (.valueError "Existing peering WireGuard addresses do not match")) := by
  constructor
  · intro hxa hyb
    rcases hrc1 : reconcileFriendly a.json a.name tp with ⟨aJ, tp'⟩
    rcases hrc2 : reconcileFriendly b.json b.name sp with ⟨bJ, sp'⟩
    have hcore1 : tp'.core = tp.core := by
      have := reconcileFriendly_core a.json a.name tp
      rw [hrc1] at this
      exact this
    have hcore2 : sp'.core = sp.core := by
      have := reconcileFriendly_core b.json b.name sp
      rw [hrc2] at this
      exact this
    have hmapA := updatePeer_map_core (publicKey b.config.privateKey) sp' sp
      WgPeer.core a.config.peers hndA hthat hcore2
    have hmapB := updatePeer_map_core (publicKey a.config.privateKey) tp' tp
      WgPeer.core b.config.peers hndB hthis hcore1
    unfold MeshNode.peer_with
    simp only [hthis, hthat, hx, hy, hrc1, hrc2]
    simp [hk, hxa, hyb]
    refine ⟨_, _, ⟨rfl, rfl⟩, ?_, ?_, rfl, rfl, rfl, rfl, rfl, rfl, rfl, rfl⟩
    · simpa using hmapA
    · simpa using hmapB
  · intro hmis
    unfold MeshNode.peer_with
    rcases hmis with hm | hm
    · simp only [hthis, hthat, hx, hy]
      simp [hm, hk]
    · by_cases hxa : x = a.wg_addr
      · simp only [hthis, hthat, hx, hy]
        simp [hxa, hm, hk]
      · simp only [hthis, hthat, hx, hy]
        simp [hxa, hk]

/-- Witness for C7: refreshing the concrete already-peered sample nodes
leaves both configs' payloads unchanged. -/
theorem c7_peer_with_refresh_witness :
    ∃ a' b', MeshNode.peer_with nodeA' nodeB' 9 true = .ok (a', b') ∧
      a'.config.peers.map (fun kp => (kp.1, kp.2.core)) =
        nodeA'.config.peers.map (fun kp => (kp.1, kp.2.core)) ∧
      b'.config.peers.map (fun kp => (kp.1, kp.2.core)) =
        nodeB'.config.peers.map (fun kp => (kp.1, kp.2.core)) ∧
      a'.config.postup = nodeA'.config.postup ∧
      a'.config.predown = nodeA'.config.predown ∧
      b'.config.postup = nodeB'.config.postup ∧
      b'.config.predown = nodeB'.config.predown ∧
      a'.config.privateKey = nodeA'.config.privateKey ∧
      a'.config.addresses = nodeA'.config.addresses ∧
      b'.config.privateKey = nodeB'.config.privateKey ∧
      b'.config.addresses = nodeB'.config.addresses :=
  (c7_peer_with_refresh nodeA' nodeB' 9 true peerEntryA peerEntryB tunA tunB
    (by decide) (by decide) (by decide) (by decide) (by decide) (by decide) (by decide)).1
    (by decide) (by decide)

/-- The peer_with events of a mesh-level trace. -/
def peerEvs (evs : List MEv) : List MEv :=
  evs.filter (fun e => match e with | .peer _ _ => true | _ => false)

/-- Compensation produces only down events. -/
theorem compensate_no_peer (write : Option Bool) :
    ∀ l : List (Nat × NodeSt), peerEvs (compensate write l).2 = [] := by
  intro l
  induction l with
  | nil => rfl
  | cons p rest ih =>
    rcases p with ⟨i, s⟩
    simp only [compensate]
    cases h : (compOut write s).result with
    | error e => simp [peerEvs]
    | ok b =>
      cases hr : compensate write rest with
      | mk res evs =>
        rw [hr] at ih
        simpa [peerEvs, List.filter] using ih

/-- The per-node up loop produces only up and down events. -/
theorem upLoop_no_peer (write : Option Bool) :
    ∀ (ss : List NodeSt) (i : Nat) (ups : List (Nat × NodeSt)),
      peerEvs (upLoop write i ups ss).2 = [] := by
  intro ss
  induction ss with
  | nil => intro i ups; rfl
  | cons s rest ih =>
    intro i ups
    simp only [upLoop]
    cases h : (upOut write s).result with
    | error e => simp [peerEvs]
    | ok b =>
      cases b
      · cases hc : compensate write ups with
        | mk cres cevs =>
          have := compensate_no_peer write ups
          rw [hc] at this
          cases cres <;> simpa [peerEvs, List.filter] using this
      · cases hr : upLoop write (i+1) (ups ++ [(i, s)]) rest with
        | mk res evs =>
          have := ih (i+1) (ups ++ [(i, s)])
          rw [hr] at this
          simpa [peerEvs, List.filter] using this

/-- A successful pair sweep emits exactly one peer event per listed
pair, in order. -/
theorem runPairs_events (psk : Nat → Nat → Nat) (cp : Nat → Nat → Bool) :
    ∀ (ps : List (Nat × Nat)) (σ ns : List NodeSt) (evs : List MEv),
      runPairs psk cp σ ps = (.ok ns, evs) →
      evs = ps.map (fun ij => MEv.peer ij.1 ij.2) := by
  intro ps
  induction ps with
  | nil =>
    intro σ ns evs h
    simp only [runPairs] at h
    cases h
    rfl
  | cons ij rest ih =>
    intro σ ns evs h
    rcases ij with ⟨i, j⟩
    simp only [runPairs] at h
    cases hpw : MeshNode.peer_with (σ.getD i dfltSt).node (σ.getD j dfltSt).node
        (psk i j) (cp i j) with
    | error e => rw [hpw] at h; simp at h
    | ok pr =>
      rcases pr with ⟨a', b'⟩
      rw [hpw] at h
      simp only at h
      cases hr : runPairs psk cp
          ((σ.set i { σ.getD i dfltSt with node := a' }).set j
            { σ.getD j dfltSt with node := b' }) rest with
      | mk res evs' =>
        rw [hr] at h
        cases res with
        | error e => simp at h
        | ok ns' =>
          simp only [Prod.mk.injEq] at h
          rcases h with ⟨_, hev⟩
          rw [← hev, List.map_cons]
          exact congrArg _ (ih _ ns' evs' (by rw [hr]))

/-- Trace filtering distributes over concatenation. -/
theorem peerEvs_append (l1 l2 : List MEv) :
    peerEvs (l1 ++ l2) = peerEvs l1 ++ peerEvs l2 := by
  simp [peerEvs, List.filter_append]

/-- A list of peer events is fixed by the filter. -/
theorem peerEvs_of_peers (ps : List (Nat × Nat)) :
    peerEvs (ps.map (fun ij => MEv.peer ij.1 ij.2)) =
      ps.map (fun ij => MEv.peer ij.1 ij.2) := by
  induction ps with
  | nil => rfl
  | cons ij rest ih => simp [peerEvs, List.filter] at ih ⊢; exact ih

/-- C4 (amended): Mesh.up performs the complete pair sweep iff at least
one node's declared address is a freshly generated random address or its
in-memory config has an empty peer list - the write argument plays no
role, and the on-disk state is not consulted; when the sweep runs and no
peering error occurs it visits every unordered pair. -/
theorem c4_sweep_condition (m : Mesh) (psk : Nat → Nat → Nat) (cp : Nat → Nat → Bool)
    (write : Option Bool) :
    (m.needSweep = false → peerEvs (m.up psk cp write).2 = []) ∧
    (∀ ns evs, m.needSweep = true →
      runPairs psk cp m.nodes (allPairsFrom 0 m.nodes.length) = (.ok ns, evs) →
      peerEvs (m.up psk cp write).2 =
        (allPairsFrom 0 m.nodes.length).map (fun ij => MEv.peer ij.1 ij.2)) ∧
    (m.needSweep = true ↔ ∃ s ∈ m.nodes, s.node.addrIsRandom = true ∨ s.node.config.peers = []) := by
  refine ⟨?_, ?_, ?_⟩
  · intro h
    simp only [Mesh.up, Mesh.sweepNodes, h, Bool.false_eq_true, if_false]
    cases hu : upLoop write 0 [] m.nodes with
    | mk res evs' =>
      have := upLoop_no_peer write m.nodes 0 []
      rw [hu] at this
      simpa using this
  · intro ns evs h hrun
    have hsw : m.sweepNodes psk cp = (.ok ns, evs) := by
      simp only [Mesh.sweepNodes, h, if_true]
      exact hrun
    simp only [Mesh.up, hsw]
    cases hu : upLoop write 0 [] ns with
    | mk res evs' =>
      have hl := upLoop_no_peer write ns 0 []
      rw [hu] at hl
      have hev := runPairs_events psk cp (allPairsFrom 0 m.nodes.length) m.nodes ns evs hrun
      simp only at hl ⊢
      rw [peerEvs_append, hev, hl, peerEvs_of_peers, List.append_nil]
  · simp only [Mesh.needSweep, List.any_eq_true, Bool.or_eq_true, List.isEmpty_iff]

/-- Constant preshared-key oracle used in concrete runs. -/
def psk0 : Nat → Nat → Nat := fun _ _ => 7

/-- Constant reachability oracle used in concrete runs. -/
def cp0 : Nat → Nat → Bool := fun _ _ => true

/-- A 2-node mesh whose nodes have no peers yet, forcing the sweep. -/
def meshSweep : Mesh :=
  ⟨"m", true, [⟨nodeA, ⟨none, false⟩, envOk⟩, ⟨nodeB, ⟨none, false⟩, envOk⟩]⟩

/-- The concrete sweep run over meshSweep's pair list. -/
def meshSweepRun : Except PyErr (List NodeSt) × List MEv :=
  runPairs psk0 cp0 meshSweep.nodes (allPairsFrom 0 meshSweep.nodes.length)

/-- The node states produced by the concrete sweep. -/
def meshSweepRunNodes : List NodeSt :=
  match meshSweepRun.1 with
  | .ok ns => ns
  | .error _ => []

set_option maxRecDepth 4000 in
/-- Witness for C4 (amended): on the concrete 2-node no-peers mesh the
sweep runs and visits the single pair, even with write=false. -/
theorem c4_sweep_condition_witness :
    peerEvs (meshSweep.up psk0 cp0 (some false)).2 =
      (allPairsFrom 0 meshSweep.nodes.length).map (fun ij => MEv.peer ij.1 ij.2) :=
  (c4_sweep_condition meshSweep psk0 cp0 (some false)).2.1 meshSweepRunNodes
    meshSweepRun.2 (by decide) (by decide)

set_option maxRecDepth 4000 in
/-- C4 counterexample: with write=false and a node with an empty peer
list, Mesh.up still performs the pair sweep - refuting that the sweep
requires write ≠ false. -/
theorem c4_counterexample :
    MEv.peer 0 1 ∈ (meshSweep.up psk0 cp0 (some false)).2 := by
  decide

/-- The up events emitted while bringing up the listed nodes in order,
starting at position i. -/
def upEvs (write : Option Bool) (i : Nat) : List NodeSt → List MEv
  | [] => []
  | s :: rest => .up i (upOut write s).trace :: upEvs write (i + 1) rest

/-- The compensation events for an explicitly tagged list of
previously-succeeded nodes, in list order. -/
def compEvsP (write : Option Bool) : List (Nat × NodeSt) → List MEv
  | [] => []
  | (i, s) :: rest => .down i (compOut write s).trace :: compEvsP write rest

/-- The compensation events for the listed nodes tagged from position i. -/
def compEvs (write : Option Bool) (i : Nat) : List NodeSt → List MEv
  | [] => []
  | s :: rest => .down i (compOut write s).trace :: compEvs write (i + 1) rest

/-- Tag the listed nodes with their positions starting at i. -/
def tagFrom (i : Nat) : List NodeSt → List (Nat × NodeSt)
  | [] => []
  | s :: rest => (i, s) :: tagFrom (i + 1) rest

/-- Members of a tagged list are members of the list. -/
theorem tagFrom_mem : ∀ (l : List NodeSt) (i : Nat) (p : Nat × NodeSt),
    p ∈ tagFrom i l → p.2 ∈ l := by
  intro l
  induction l with
  | nil => intro i p h; simp [tagFrom] at h
  | cons s rest ih =>
    intro i p h
    simp only [tagFrom, List.mem_cons] at h
    rcases h with h | h
    · subst h; simp
    · exact List.mem_cons_of_mem s (ih (i + 1) p h)

/-- Tagged compensation events agree with position-indexed ones. -/
theorem compEvsP_tagFrom (write : Option Bool) :
    ∀ (l : List NodeSt) (i : Nat), compEvsP write (tagFrom i l) = compEvs write i l := by
  intro l
  induction l with
  | nil => intro i; rfl
  | cons s rest ih => intro i; simp [tagFrom, compEvsP, compEvs, ih (i + 1)]

/-- When every compensating down returns a boolean, the compensation
loop completes and emits one down event per succeeded node, in order. -/
theorem compensate_ok (write : Option Bool) :
    ∀ l : List (Nat × NodeSt), (∀ p ∈ l, ∃ b, (compOut write p.2).result = .ok b) →
      compensate write l = (.ok (), compEvsP write l) := by
  intro l
  induction l with
  | nil => intro _; rfl
  | cons p rest ih =>
    intro h
    rcases p with ⟨i, s⟩
    rcases h (i, s) (List.mem_cons_self _ _) with ⟨b, hb⟩
    have hrest := ih (fun q hq => h q (List.mem_cons_of_mem _ hq))
    simp [compensate, hb, hrest, compEvsP]

/-- When every node comes up, the loop visits all nodes; the result is
None iff nothing was ever appended. -/
theorem upLoop_all_true (write : Option Bool) :
    ∀ (ss : List NodeSt) (i : Nat) (ups : List (Nat × NodeSt)),
      (∀ s ∈ ss, (upOut write s).result = .ok true) →
      upLoop write i ups ss =
        (.ok (if ups.isEmpty && ss.isEmpty then none else some true), upEvs write i ss) := by
  intro ss
  induction ss with
  | nil => intro i ups _; simp [upLoop, upEvs]
  | cons s rest ih =>
    intro i ups h
    have hs := h s (List.mem_cons_self s rest)
    have hrest := ih (i + 1) (ups ++ [(i, s)]) (fun t ht => h t (List.mem_cons_of_mem s ht))
    simp [upLoop, hs, hrest, upEvs]

/-- First failure: the loop stops at the failing node and compensates
every previously-succeeded node in order. -/
theorem upLoop_first_false (write : Option Bool) :
    ∀ (pre : List NodeSt) (i : Nat) (ups : List (Nat × NodeSt)) (s : NodeSt)
      (post : List NodeSt),
      (∀ t ∈ pre, (upOut write t).result = .ok true) →
      (upOut write s).result = .ok false →
      (∀ p ∈ ups ++ tagFrom i pre, ∃ b, (compOut write p.2).result = .ok b) →
      upLoop write i ups (pre ++ s :: post) =
        (.ok (some false),
          upEvs write i pre ++ [.up (i + pre.length) (upOut write s).trace]
            ++ compEvsP write (ups ++ tagFrom i pre)) := by
  intro pre
  induction pre with
  | nil =>
    intro i ups s post _ hs hcomp
    have hc := compensate_ok write ups (by simpa [tagFrom] using hcomp)
    simp [upLoop, hs, hc, upEvs, compEvsP, tagFrom]
  | cons t rest ih =>
    intro i ups s post hpre hs hcomp
    have ht := hpre t (List.mem_cons_self t rest)
    have hcomp' : ∀ p ∈ (ups ++ [(i, t)]) ++ tagFrom (i + 1) rest,
        ∃ b, (compOut write p.2).result = .ok b := by
      intro p hp
      apply hcomp
      simp only [tagFrom, List.append_assoc, List.cons_append, List.nil_append]
      simpa [List.append_assoc] using hp
    have hrec := ih (i + 1) (ups ++ [(i, t)]) s post
      (fun u hu => hpre u (List.mem_cons_of_mem t hu)) hs hcomp'
    have harith : i + 1 + rest.length = i + (rest.length + 1) := by omega
    simp [upLoop, ht, hrec, upEvs, tagFrom, compEvsP, harith, List.append_assoc]

/-- C1: Mesh.up attempts node.up(write) in iteration order; at the first
node whose up returns False every previously-succeeded node receives
down(remove=write) in a deterministic (forward) order and up returns
False; if every node succeeds it returns True; if zero nodes were
attempted (the empty mesh) it returns None. -/
theorem c1_up_rollback (m : Mesh) (psk : Nat → Nat → Nat) (cp : Nat → Nat → Bool)
    (write : Option Bool) (ss : List NodeSt) (sevs : List MEv)
    (hsweep : m.sweepNodes psk cp = (.ok ss, sevs)) :
    (ss = [] → m.up psk cp write = (.ok none, sevs)) ∧
    (ss ≠ [] → (∀ s ∈ ss, (upOut write s).result = .ok true) →
      m.up psk cp write = (.ok (some true), sevs ++ upEvs write 0 ss)) ∧
    (∀ pre s post, ss = pre ++ s :: post →
      (∀ t ∈ pre, (upOut write t).result = .ok true) →
      (upOut write s).result = .ok false →
      (∀ t ∈ pre, ∃ b, (compOut write t).result = .ok b) →
      m.up psk cp write = (.ok (some false),
        sevs ++ (upEvs write 0 pre ++ [.up pre.length (upOut write s).trace]
          ++ compEvs write 0 pre))) := by
  refine ⟨?_, ?_, ?_⟩
  · intro he
    subst he
    simp [Mesh.up, hsweep, upLoop]
  · intro hne hall
    have := upLoop_all_true write ss 0 [] hall
    have hnee : ss.isEmpty = false := by
      cases ss
      · exact absurd rfl hne
      · rfl
    rw [hnee] at this
    simp only [Bool.and_false, if_false] at this
    simp [Mesh.up, hsweep, this]
  · intro pre s post hdec hpre hs hcomp
    have hcomp' : ∀ p ∈ ([] : List (Nat × NodeSt)) ++ tagFrom 0 pre,
        ∃ b, (compOut write p.2).result = .ok b := by
      intro p hp
      simp only [List.nil_append] at hp
      exact hcomp p.2 (tagFrom_mem pre 0 p hp)
    have := upLoop_first_false write pre 0 [] s post hpre hs hcomp'
    rw [List.nil_append, compEvsP_tagFrom] at this
    simp only [Nat.zero_add] at this
    simp [Mesh.up, hsweep, hdec, this, List.append_assoc]

/-- A configured, converged, currently-down node whose remote works. -/
def sC1ok : NodeSt := ⟨nodeA', ⟨some nodeA'.config, false⟩, envOk⟩

/-- A configured, converged, currently-down node whose wg-quick up fails. -/
def sC1fail : NodeSt := ⟨nodeB', ⟨some nodeB'.config, false⟩, envUpFails⟩

/-- A 2-node mesh (peers present, so no sweep) whose second node fails
to come up. -/
def meshC1 : Mesh := ⟨"m", true, [sC1ok, sC1fail]⟩

/-- Witness for C1: on the concrete mesh, node 0 comes up, node 1 fails,
node 0 is compensated with down(remove=write), and Mesh.up returns
False. -/
theorem c1_up_rollback_witness :
    meshC1.up psk0 cp0 none =
      (.ok (some false),
        [] ++ (upEvs none 0 [sC1ok] ++ [.up 1 (upOut none sC1fail).trace]
          ++ compEvs none 0 [sC1ok])) :=
  (c1_up_rollback meshC1 psk0 cp0 none [sC1ok, sC1fail] [] (by decide)).2.2
    [sC1ok] sC1fail [] rfl (by decide) (by decide) (by decide)

end WgMesh
